import Mathlib

/-!
Verification of the Celery3D UART cube animation driver
(source files: src/sw/cube_uart.py and src/sw/test_uart.py).

The driver is modelled with exact rational arithmetic for the value-level
computations (fixed-point encoding, RGB565 packing, protocol byte layout,
the per-triangle render loop) and with real arithmetic for the parts that
use square roots (vector length, normalization, the look-at matrix).
Machine integers are modelled as Nat/Int with explicit reduction modulo
powers of two where the source wraps.
-/

namespace Celery3D

/-- Truncation of a rational toward zero: the semantics of the Python
int() conversion applied to a float value (int truncates toward zero). -/
def intTrunc (x : ℚ) : ℤ := if 0 ≤ x then ⌊x⌋ else ⌈x⌉

/-- Number of fractional bits of the fixed-point format (cube_uart.py line 21). -/
def FP_FRAC_BITS : ℕ := 16

/-- Screen width in pixels (cube_uart.py line 17). -/
def SCREEN_WIDTH : ℕ := 64

/-- Screen height in pixels (cube_uart.py line 18). -/
def SCREEN_HEIGHT : ℕ := 64

/-- Opcode of the framebuffer clear command (cube_uart.py line 24). -/
def CMD_CLEAR_FB : ℕ := 0x01

/-- Opcode of the depth clear command (cube_uart.py line 25). -/
def CMD_CLEAR_DEPTH : ℕ := 0x02

/-- Opcode of the triangle command (cube_uart.py line 26). -/
def CMD_TRIANGLE : ℕ := 0x03

/-- Opcode of the configuration command (cube_uart.py line 27). -/
def CMD_SET_CONFIG : ℕ := 0x04

/-- Embedding of float_to_fp (cube_uart.py lines 40-43):
val = int(f * (1 << FP_FRAC_BITS)); return val & 0xFFFFFFFF.
On an arbitrary-precision Python integer, masking with 0xFFFFFFFF is
reduction modulo 2^32 (with a non-negative result), which is Int.emod here. -/
def float_to_fp (f : ℚ) : ℕ :=
  ((intTrunc (f * 2 ^ FP_FRAC_BITS)) % 2 ^ 32).toNat

/-- Reinterpretation of an unsigned 32-bit pattern as a signed two's-complement
value. Follows the spec wording for the signed Q15.16 format; the source
implements the encode direction only. -/
def fp_to_signed (u : ℕ) : ℤ :=
  if u < 2 ^ 31 then (u : ℤ) else (u : ℤ) - 2 ^ 32

/-- Decoding of a 32-bit pattern as a signed Q15.16 fixed-point value.
Follows the spec wording (glossary: Q15.16 fixed-point); the source
implements the encode direction only. -/
def fp_decode_spec (u : ℕ) : ℚ :=
  (fp_to_signed u : ℚ) / 2 ^ FP_FRAC_BITS

/-- Embedding of pack_rgb565 (cube_uart.py lines 46-51, identical copy in
test_uart.py lines 17-22): each channel is min-clamped at 1.0, scaled, and
truncated by int(); the fields are combined with shifts and bitwise or on
Python integers, so shifts are multiplications by powers of two and the or
is the two's-complement Int.lor. -/
def pack_rgb565 (r g b : ℚ) : ℤ :=
  let ri := intTrunc (min r 1 * 31)
  let gi := intTrunc (min g 1 * 63)
  let bi := intTrunc (min b 1 * 31)
  Int.lor (Int.lor (ri * 2 ^ 11) (gi * 2 ^ 5)) bi

/-- Little-endian byte decomposition of an unsigned 32-bit value, as produced
for each field by struct.pack with format <I. -/
def le32 (n : ℕ) : List ℕ :=
  [n % 2 ^ 8, n / 2 ^ 8 % 2 ^ 8, n / 2 ^ 16 % 2 ^ 8, n / 2 ^ 24 % 2 ^ 8]

/-- Device-space vertex record as built by transform_vertex (cube_uart.py
lines 236-241): a dict with keys x, y, z, w, u, v, r, g, b, a. -/
structure Vertex (α : Type) where
  x : α
  y : α
  z : α
  w : α
  u : α
  v : α
  r : α
  g : α
  b : α
  a : α

/-- Embedding of send_vertex (cube_uart.py lines 264-279): struct.pack of the
ten fields, in the order x, y, z, w, u, v, r, g, b, a, each first converted
by float_to_fp and then serialized as a little-endian 32-bit word. -/
def send_vertex (p : Vertex ℚ) : List ℕ :=
  le32 (float_to_fp p.x) ++ le32 (float_to_fp p.y) ++ le32 (float_to_fp p.z) ++
  le32 (float_to_fp p.w) ++ le32 (float_to_fp p.u) ++ le32 (float_to_fp p.v) ++
  le32 (float_to_fp p.r) ++ le32 (float_to_fp p.g) ++ le32 (float_to_fp p.b) ++
  le32 (float_to_fp p.a)

/-- Embedding of send_triangle (cube_uart.py lines 282-287): the CMD_TRIANGLE
opcode byte followed by the three vertex records. -/
def send_triangle (v0 v1 v2 : Vertex ℚ) : List ℕ :=
  CMD_TRIANGLE :: (send_vertex v0 ++ send_vertex v1 ++ send_vertex v2)

/-- Follows the spec wording for a vertex record: ten consecutive
little-endian 32-bit fixed-point fields in the fixed order
x, y, z, w, u, v, r, g, b, a, each produced by the fixed-point encode. -/
def vertex_record_spec (p : Vertex ℚ) : List ℕ :=
  (([p.x, p.y, p.z, p.w, p.u, p.v, p.r, p.g, p.b, p.a]).map
    (fun c => le32 (float_to_fp c))).flatten

/-- Follows the spec wording for the triangle command: a single 0x03 opcode
byte followed by exactly three vertex records. -/
def triangle_command_spec (v0 v1 v2 : Vertex ℚ) : List ℕ :=
  0x03 :: (vertex_record_spec v0 ++ vertex_record_spec v1 ++ vertex_record_spec v2)

/-- Three-component vector, as used for positions, colors and the camera
basis (3-element Python lists in the source). -/
structure Vec3 (α : Type) where
  x : α
  y : α
  z : α

/-- Homogeneous four-component vector (4-element Python list in the source). -/
structure Vec4 (α : Type) where
  x : α
  y : α
  z : α
  w : α

/-- Row-major 4x4 matrix: m i j is the entry of row i, column j, matching
m[row][col] on the nested Python lists. -/
abbrev Mat4 (α : Type) := Fin 4 → Fin 4 → α

section FieldOps

variable {α : Type} [Field α]

/-- Embedding of mat4_identity (cube_uart.py lines 58-64): the explicit
list-of-rows identity matrix. -/
def mat4_identity : Mat4 α :=
  ![![1, 0, 0, 0],
    ![0, 1, 0, 0],
    ![0, 0, 1, 0],
    ![0, 0, 0, 1]]

/-- Embedding of mat4_multiply (cube_uart.py lines 67-73): the triple loop
accumulates result[i][j] = sum over k of a[i][k] * b[k][j], starting from 0
and adding the k = 0, 1, 2, 3 terms in order. -/
def mat4_multiply (a b : Mat4 α) : Mat4 α := fun i j =>
  0 + a i 0 * b 0 j + a i 1 * b 1 j + a i 2 * b 2 j + a i 3 * b 3 j

/-- Embedding of mat4_transform (cube_uart.py lines 76-83): matrix times
column vector. -/
def mat4_transform (m : Mat4 α) (p : Vec4 α) : Vec4 α :=
  ⟨m 0 0 * p.x + m 0 1 * p.y + m 0 2 * p.z + m 0 3 * p.w,
   m 1 0 * p.x + m 1 1 * p.y + m 1 2 * p.z + m 1 3 * p.w,
   m 2 0 * p.x + m 2 1 * p.y + m 2 2 * p.z + m 2 3 * p.w,
   m 3 0 * p.x + m 3 1 * p.y + m 3 2 * p.z + m 3 3 * p.w⟩

/-- Embedding of vec3_dot (cube_uart.py lines 97-98). -/
def vec3_dot (a b : Vec3 α) : α := a.x * b.x + a.y * b.y + a.z * b.z

/-- Embedding of vec3_sub (cube_uart.py lines 101-102). -/
def vec3_sub (a b : Vec3 α) : Vec3 α := ⟨a.x - b.x, a.y - b.y, a.z - b.z⟩

/-- Embedding of vec3_cross (cube_uart.py lines 105-110). -/
def vec3_cross (a b : Vec3 α) : Vec3 α :=
  ⟨a.y * b.z - a.z * b.y, a.z * b.x - a.x * b.z, a.x * b.y - a.y * b.x⟩

/-- Embedding of vec3_scale (cube_uart.py lines 113-114). -/
def vec3_scale (v : Vec3 α) (s : α) : Vec3 α := ⟨v.x * s, v.y * s, v.z * s⟩

/-- Embedding of transform_vertex (cube_uart.py lines 216-241): clip-space
transform of the homogenized position, perspective divide, screen mapping,
scaled reciprocal w, pass-through of uv and color, constant alpha 1.0. -/
def transform_vertex (pos : Vec3 α) (uv : α × α) (color : Vec3 α)
    (mvp : Mat4 α) : Vertex α :=
  let clip := mat4_transform mvp ⟨pos.x, pos.y, pos.z, 1.0⟩
  let inv_w := 1.0 / clip.w
  let ndc_x := clip.x * inv_w
  let ndc_y := clip.y * inv_w
  let ndc_z := clip.z * inv_w
  { x := (ndc_x + 1.0) * 0.5 * (SCREEN_WIDTH : α)
    y := (1.0 - ndc_y) * 0.5 * (SCREEN_HEIGHT : α)
    z := (ndc_z + 1.0) * 0.5
    w := inv_w * 16.0
    u := uv.1
    v := uv.2
    r := color.x
    g := color.y
    b := color.z
    a := 1.0 }

end FieldOps

section RealOps

/-- Embedding of vec3_length (cube_uart.py lines 117-118): the Euclidean
length via math.sqrt, modelled with the real square root. -/
noncomputable def vec3_length (v : Vec3 ℝ) : ℝ := Real.sqrt (vec3_dot v v)

/-- Embedding of vec3_normalize (cube_uart.py lines 121-125): scale by the
reciprocal length when the length exceeds 0.0001, otherwise return the
input unchanged. -/
noncomputable def vec3_normalize (v : Vec3 ℝ) : Vec3 ℝ :=
  if 0.0001 < vec3_length v then vec3_scale v (1.0 / vec3_length v) else v

/-- Embedding of mat4_look_at (cube_uart.py lines 128-142). The source
starts from mat4_identity and overwrites every entry of rows 0 to 2, so the
result is written here as the explicit list of rows; row 3 keeps its
identity values 0, 0, 0, 1. -/
noncomputable def mat4_look_at (eye target up : Vec3 ℝ) : Mat4 ℝ :=
  let f := vec3_normalize (vec3_sub target eye)
  let r := vec3_normalize (vec3_cross f up)
  let u := vec3_cross r f
  ![![r.x, r.y, r.z, -(vec3_dot r eye)],
    ![u.x, u.y, u.z, -(vec3_dot u eye)],
    ![-f.x, -f.y, -f.z, vec3_dot f eye],
    ![0, 0, 0, 1]]

/-- Follows the spec wording for lookAt: forward is the unit-scaled
target - eye, right is the unit-scaled cross of forward and up, trueUp is
the cross of right and forward; the first three rows hold right, trueUp and
the negated forward, with translation entries the negated dots of right and
trueUp with eye and the positive dot of forward with eye. -/
noncomputable def mat4_look_at_spec (eye target up : Vec3 ℝ) : Mat4 ℝ :=
  let f := vec3_scale (vec3_sub target eye) (1 / vec3_length (vec3_sub target eye))
  let r := vec3_scale (vec3_cross f up) (1 / vec3_length (vec3_cross f up))
  let u := vec3_cross r f
  ![![r.x, r.y, r.z, -(vec3_dot r eye)],
    ![u.x, u.y, u.z, -(vec3_dot u eye)],
    ![-f.x, -f.y, -f.z, vec3_dot f eye],
    ![0, 0, 0, 1]]

end RealOps

/-- Embedding of CUBE_POSITIONS (cube_uart.py lines 166-179): 24 vertex
positions, four per face. -/
def CUBE_POSITIONS : List (Vec3 ℚ) :=
  [⟨-1, -1,  1⟩, ⟨ 1, -1,  1⟩, ⟨ 1,  1,  1⟩, ⟨-1,  1,  1⟩,
   ⟨ 1, -1, -1⟩, ⟨-1, -1, -1⟩, ⟨-1,  1, -1⟩, ⟨ 1,  1, -1⟩,
   ⟨-1,  1,  1⟩, ⟨ 1,  1,  1⟩, ⟨ 1,  1, -1⟩, ⟨-1,  1, -1⟩,
   ⟨-1, -1, -1⟩, ⟨ 1, -1, -1⟩, ⟨ 1, -1,  1⟩, ⟨-1, -1,  1⟩,
   ⟨ 1, -1,  1⟩, ⟨ 1, -1, -1⟩, ⟨ 1,  1, -1⟩, ⟨ 1,  1,  1⟩,
   ⟨-1, -1, -1⟩, ⟨-1, -1,  1⟩, ⟨-1,  1,  1⟩, ⟨-1,  1, -1⟩]

/-- Embedding of CUBE_UVS (cube_uart.py lines 182-189): 24 texture
coordinate pairs, the same four for every face. -/
def CUBE_UVS : List (ℚ × ℚ) :=
  [(0, 1), (1, 1), (1, 0), (0, 0),
   (0, 1), (1, 1), (1, 0), (0, 0),
   (0, 1), (1, 1), (1, 0), (0, 0),
   (0, 1), (1, 1), (1, 0), (0, 0),
   (0, 1), (1, 1), (1, 0), (0, 0),
   (0, 1), (1, 1), (1, 0), (0, 0)]

/-- Embedding of FACE_COLORS (cube_uart.py lines 192-199): one color per
cube face. -/
def FACE_COLORS : List (Vec3 ℚ) :=
  [⟨1.0, 0.8, 0.8⟩,
   ⟨0.8, 1.0, 0.8⟩,
   ⟨0.8, 0.8, 1.0⟩,
   ⟨1.0, 1.0, 0.8⟩,
   ⟨1.0, 0.8, 1.0⟩,
   ⟨0.8, 1.0, 1.0⟩]

/-- Embedding of CUBE_INDICES (cube_uart.py lines 202-209): 36 indices, two
triangles per face. -/
def CUBE_INDICES : List ℕ :=
  [0, 1, 2,  0, 2, 3,
   4, 5, 6,  4, 6, 7,
   8, 9, 10, 8, 10, 11,
   12, 13, 14, 12, 14, 15,
   16, 17, 18, 16, 18, 19,
   20, 21, 22, 20, 22, 23]

/-- Embedding of one iteration of the render loop body (cube_uart.py lines
358-368) for triangle number t: the loop variable is i = 3 * t, the face is
i // 6, its color is FACE_COLORS[face], and the three vertices indexed by
CUBE_INDICES[i], [i+1], [i+2] are transformed with that same color. -/
def render_triangle (mvp : Mat4 ℚ) (t : ℕ) : Vertex ℚ × Vertex ℚ × Vertex ℚ :=
  let i := 3 * t
  let face := i / 6
  let color := FACE_COLORS.getD face ⟨0, 0, 0⟩
  let i0 := CUBE_INDICES.getD i 0
  let i1 := CUBE_INDICES.getD (i + 1) 0
  let i2 := CUBE_INDICES.getD (i + 2) 0
  (transform_vertex (CUBE_POSITIONS.getD i0 ⟨0, 0, 0⟩) (CUBE_UVS.getD i0 (0, 0)) color mvp,
   transform_vertex (CUBE_POSITIONS.getD i1 ⟨0, 0, 0⟩) (CUBE_UVS.getD i1 (0, 0)) color mvp,
   transform_vertex (CUBE_POSITIONS.getD i2 ⟨0, 0, 0⟩) (CUBE_UVS.getD i2 (0, 0)) color mvp)

/-! ### Helper lemmas -/

lemma intTrunc_sub_abs_lt_one (y : ℚ) : |(intTrunc y : ℚ) - y| < 1 := by
  by_cases h : 0 ≤ y
  · rw [intTrunc, if_pos h, abs_sub_lt_iff]
    have h1 := Int.floor_le y
    have h2 := Int.lt_floor_add_one y
    constructor <;> linarith
  · rw [intTrunc, if_neg h, abs_sub_lt_iff]
    have h1 := Int.le_ceil y
    have h2 := Int.ceil_lt_add_one y
    constructor <;> linarith

lemma intTrunc_bounds {x : ℚ} (h1 : -(2 ^ 15) ≤ x) (h2 : x < 2 ^ 15) :
    -(2 ^ 31) ≤ intTrunc (x * 2 ^ 16) ∧ intTrunc (x * 2 ^ 16) < 2 ^ 31 := by
  by_cases h : 0 ≤ x * 2 ^ 16
  · rw [intTrunc, if_pos h]
    constructor
    · exact le_trans (by norm_num) (Int.floor_nonneg.mpr h)
    · rw [Int.floor_lt]
      push_cast
      nlinarith
  · rw [intTrunc, if_neg h]
    push_neg at h
    constructor
    · have hy : (-(2 ^ 31) : ℚ) ≤ x * 2 ^ 16 := by nlinarith
      have hc := Int.le_ceil (x * 2 ^ 16)
      exact_mod_cast le_trans hy hc
    · have hcl : ⌈x * 2 ^ 16⌉ ≤ 0 := Int.ceil_le.mpr (by exact_mod_cast h.le)
      exact lt_of_le_of_lt hcl (by norm_num)

lemma fp_to_signed_emod {s : ℤ} (h1 : -(2 ^ 31) ≤ s) (h2 : s < 2 ^ 31) :
    fp_to_signed ((s % 2 ^ 32).toNat) = s := by
  rw [show ((2 : ℤ) ^ 31) = 2147483648 by norm_num] at h1 h2
  rw [show ((2 : ℤ) ^ 32) = 4294967296 by norm_num]
  unfold fp_to_signed
  rw [show ((2 : ℕ) ^ 31) = 2147483648 by norm_num,
    show ((2 : ℤ) ^ 32) = 4294967296 by norm_num]
  split <;> omega

lemma intTrunc_eval {x : ℚ} {n : ℤ} (h0 : 0 ≤ x) (h1 : (n : ℚ) ≤ x)
    (h2 : x < n + 1) : intTrunc x = n := by
  rw [intTrunc, if_pos h0, Int.floor_eq_iff]
  exact ⟨h1, h2⟩

lemma intTrunc_channel_bounds (c q : ℚ) (m : ℤ) (hc : 0 ≤ c)
    (hq : q = (m : ℚ)) (hm : 0 ≤ (m : ℚ)) :
    0 ≤ intTrunc (min c 1 * q) ∧ intTrunc (min c 1 * q) ≤ m := by
  subst hq
  have h0 : (0 : ℚ) ≤ min c 1 * (m : ℚ) :=
    mul_nonneg (le_min hc zero_le_one) hm
  have h1 : min c 1 * (m : ℚ) ≤ (m : ℚ) := by
    have hmin := min_le_right c 1
    nlinarith
  rw [intTrunc, if_pos h0]
  refine ⟨Int.floor_nonneg.mpr h0, ?_⟩
  have hfl : (⌊min c 1 * (m : ℚ)⌋ : ℚ) ≤ (m : ℚ) := le_trans (Int.floor_le _) h1
  exact_mod_cast hfl

lemma nat_or_fields : ∀ x < 32, ∀ y < 64, ∀ z < 32,
    ((x * 2048 : ℕ) ||| y * 32 ||| z) = x * 2048 + y * 32 + z := by decide

lemma int_lor_fields {a c d : ℕ} (ha : a < 32) (hc : c < 64) (hd : d < 32) :
    Int.lor (Int.lor ((a : ℤ) * 2 ^ 11) ((c : ℤ) * 2 ^ 5)) (d : ℤ)
      = (a : ℤ) * 2 ^ 11 + (c : ℤ) * 2 ^ 5 + d := by
  have e1 : ((a : ℤ) * 2 ^ 11) = ((a * 2048 : ℕ) : ℤ) := by push_cast; ring
  have e2 : ((c : ℤ) * 2 ^ 5) = ((c * 32 : ℕ) : ℤ) := by push_cast; ring
  rw [e1, e2]
  rw [show Int.lor ((a * 2048 : ℕ) : ℤ) ((c * 32 : ℕ) : ℤ)
      = (((a * 2048) ||| (c * 32) : ℕ) : ℤ) from rfl]
  rw [show Int.lor (((a * 2048) ||| (c * 32) : ℕ) : ℤ) ((d : ℕ) : ℤ)
      = ((((a * 2048) ||| (c * 32)) ||| d : ℕ) : ℤ) from rfl]
  rw [nat_or_fields a ha c hc d hd]
  push_cast
  ring

lemma pack_rgb565_eq_add {r g b : ℚ} (hr : 0 ≤ r) (hg : 0 ≤ g) (hb : 0 ≤ b) :
    pack_rgb565 r g b =
      intTrunc (min r 1 * 31) * 2 ^ 11 + intTrunc (min g 1 * 63) * 2 ^ 5 +
        intTrunc (min b 1 * 31) := by
  obtain ⟨hr0, hr1⟩ := intTrunc_channel_bounds r 31 31 hr (by norm_num) (by norm_num)
  obtain ⟨hg0, hg1⟩ := intTrunc_channel_bounds g 63 63 hg (by norm_num) (by norm_num)
  obtain ⟨hb0, hb1⟩ := intTrunc_channel_bounds b 31 31 hb (by norm_num) (by norm_num)
  simp only [pack_rgb565]
  rw [← Int.toNat_of_nonneg hr0, ← Int.toNat_of_nonneg hg0,
    ← Int.toNat_of_nonneg hb0]
  exact int_lor_fields (by omega) (by omega) (by omega)

/-! ### Claims C1, C2, C3, C10 -/

/-- C1: the fixed-point encode multiplies by 2^16, truncates toward zero and
keeps the low 32 bits as an unsigned pattern; encode of 1.5 is 0x00018000,
and decoding the pattern as signed Q15.16 recovers any value of the
representable range within 2^-16. -/
theorem claim_C1 :
    float_to_fp (3 / 2) = 0x00018000 ∧
    ∀ x : ℚ, -(2 ^ 15) ≤ x → x < 2 ^ 15 →
      |fp_decode_spec (float_to_fp x) - x| < 1 / 2 ^ 16 := by
  constructor
  · rw [float_to_fp, FP_FRAC_BITS]
    rw [show (3 / 2 : ℚ) * 2 ^ 16 = 98304 by norm_num]
    rw [show intTrunc 98304 = 98304 from
      intTrunc_eval (by norm_num) (by norm_num) (by norm_num)]
    decide
  · intro x h1 h2
    obtain ⟨b1, b2⟩ := intTrunc_bounds h1 h2
    rw [float_to_fp, fp_decode_spec, FP_FRAC_BITS, fp_to_signed_emod b1 b2]
    have habs := intTrunc_sub_abs_lt_one (x * 2 ^ 16)
    rw [show (intTrunc (x * 2 ^ 16) : ℚ) / 2 ^ 16 - x
        = ((intTrunc (x * 2 ^ 16) : ℚ) - x * 2 ^ 16) / 2 ^ 16 by ring]
    rw [abs_div, abs_of_pos (show (0 : ℚ) < 2 ^ 16 by norm_num)]
    gcongr

/-- Witness for C1, applied at x = 1/2. -/
theorem claim_C1_witness :
    |fp_decode_spec (float_to_fp (1 / 2)) - 1 / 2| < 1 / 2 ^ 16 :=
  claim_C1.2 (1 / 2) (by norm_num) (by norm_num)

/-- C2: the triangle command is exactly the opcode byte 0x03 followed by
three 40-byte vertex records of ten little-endian 32-bit fixed-point fields
in the order x, y, z, w, u, v, r, g, b, a, for 121 bytes in total. -/
theorem claim_C2 (v0 v1 v2 : Vertex ℚ) :
    send_triangle v0 v1 v2 = triangle_command_spec v0 v1 v2 ∧
    (send_vertex v0).length = 40 ∧ (send_vertex v1).length = 40 ∧
    (send_vertex v2).length = 40 ∧ (send_triangle v0 v1 v2).length = 121 := by
  refine ⟨?_, ?_, ?_, ?_, ?_⟩ <;>
    simp [send_triangle, triangle_command_spec, send_vertex, vertex_record_spec,
      le32, CMD_TRIANGLE]

/-- C3: RGB565 packing puts the truncation of min(r,1)*31 in bits 15-11, of
min(g,1)*63 in bits 10-5 and of min(b,1)*31 in bits 4-0 (shown here for
non-negative inputs, where the fields stay inside their bit ranges), and
satisfies the three concrete identities of the spec. -/
theorem claim_C3 :
    pack_rgb565 1 1 1 = 0xFFFF ∧ pack_rgb565 0 0 0 = 0 ∧
    pack_rgb565 1 0 0 = 0xF800 ∧
    ∀ r g b : ℚ, 0 ≤ r → 0 ≤ g → 0 ≤ b →
      (pack_rgb565 r g b).toNat / 2 ^ 11 = (intTrunc (min r 1 * 31)).toNat ∧
      (pack_rgb565 r g b).toNat / 2 ^ 5 % 2 ^ 6 = (intTrunc (min g 1 * 63)).toNat ∧
      (pack_rgb565 r g b).toNat % 2 ^ 5 = (intTrunc (min b 1 * 31)).toNat := by
  have c31 : intTrunc (min (1 : ℚ) 1 * 31) = 31 := by
    rw [show min (1 : ℚ) 1 * 31 = 31 by norm_num]
    exact intTrunc_eval (by norm_num) (by norm_num) (by norm_num)
  have c63 : intTrunc (min (1 : ℚ) 1 * 63) = 63 := by
    rw [show min (1 : ℚ) 1 * 63 = 63 by norm_num]
    exact intTrunc_eval (by norm_num) (by norm_num) (by norm_num)
  have z31 : intTrunc (min (0 : ℚ) 1 * 31) = 0 := by
    rw [show min (0 : ℚ) 1 * 31 = 0 by norm_num]
    exact intTrunc_eval (by norm_num) (by norm_num) (by norm_num)
  have z63 : intTrunc (min (0 : ℚ) 1 * 63) = 0 := by
    rw [show min (0 : ℚ) 1 * 63 = 0 by norm_num]
    exact intTrunc_eval (by norm_num) (by norm_num) (by norm_num)
  refine ⟨?_, ?_, ?_, ?_⟩
  · simp only [pack_rgb565, c31, c63]
    decide
  · simp only [pack_rgb565, z31, z63]
    decide
  · simp only [pack_rgb565, c31, z31, z63]
    decide
  · intro r g b hr hg hb
    have hsum := pack_rgb565_eq_add hr hg hb
    obtain ⟨hr0, hr1⟩ := intTrunc_channel_bounds r 31 31 hr (by norm_num) (by norm_num)
    obtain ⟨hg0, hg1⟩ := intTrunc_channel_bounds g 63 63 hg (by norm_num) (by norm_num)
    obtain ⟨hb0, hb1⟩ := intTrunc_channel_bounds b 31 31 hb (by norm_num) (by norm_num)
    rw [show ((2 : ℤ) ^ 11) = 2048 by norm_num,
      show ((2 : ℤ) ^ 5) = 32 by norm_num] at hsum
    refine ⟨?_, ?_, ?_⟩ <;>
      · simp only [show ((2 : ℕ) ^ 11) = 2048 by norm_num,
          show ((2 : ℕ) ^ 5) = 32 by norm_num,
          show ((2 : ℕ) ^ 6) = 64 by norm_num]
        omega

/-- Witness for C3, applied at r = g = b = 1/2. -/
theorem claim_C3_witness :
    (pack_rgb565 (1 / 2) (1 / 2) (1 / 2)).toNat / 2 ^ 11
        = (intTrunc (min (1 / 2 : ℚ) 1 * 31)).toNat ∧
    (pack_rgb565 (1 / 2) (1 / 2) (1 / 2)).toNat / 2 ^ 5 % 2 ^ 6
        = (intTrunc (min (1 / 2 : ℚ) 1 * 63)).toNat ∧
    (pack_rgb565 (1 / 2) (1 / 2) (1 / 2)).toNat % 2 ^ 5
        = (intTrunc (min (1 / 2 : ℚ) 1 * 31)).toNat :=
  claim_C3.2.2.2 (1 / 2) (1 / 2) (1 / 2) (by norm_num) (by norm_num) (by norm_num)

/-- C10: for non-negative inputs the packed RGB565 value lies in
[0, 0xFFFF], each channel stays within its field capacity, and the bitwise
or of the shifted fields coincides with their sum, so the fields never
overlap. -/
theorem claim_C10 :
    ∀ r g b : ℚ, 0 ≤ r → 0 ≤ g → 0 ≤ b →
      0 ≤ pack_rgb565 r g b ∧ pack_rgb565 r g b ≤ 0xFFFF ∧
      (0 ≤ intTrunc (min r 1 * 31) ∧ intTrunc (min r 1 * 31) ≤ 31) ∧
      (0 ≤ intTrunc (min g 1 * 63) ∧ intTrunc (min g 1 * 63) ≤ 63) ∧
      (0 ≤ intTrunc (min b 1 * 31) ∧ intTrunc (min b 1 * 31) ≤ 31) ∧
      pack_rgb565 r g b =
        intTrunc (min r 1 * 31) * 2 ^ 11 + intTrunc (min g 1 * 63) * 2 ^ 5 +
          intTrunc (min b 1 * 31) := by
  intro r g b hr hg hb
  have hsum := pack_rgb565_eq_add hr hg hb
  obtain ⟨hr0, hr1⟩ := intTrunc_channel_bounds r 31 31 hr (by norm_num) (by norm_num)
  obtain ⟨hg0, hg1⟩ := intTrunc_channel_bounds g 63 63 hg (by norm_num) (by norm_num)
  obtain ⟨hb0, hb1⟩ := intTrunc_channel_bounds b 31 31 hb (by norm_num) (by norm_num)
  refine ⟨?_, ?_, ⟨hr0, hr1⟩, ⟨hg0, hg1⟩, ⟨hb0, hb1⟩, hsum⟩ <;>
    · rw [hsum, show ((2 : ℤ) ^ 11) = 2048 by norm_num,
        show ((2 : ℤ) ^ 5) = 32 by norm_num]
      omega

/-- Witness for C10, applied at r = 1, g = 1/2, b = 0. -/
theorem claim_C10_witness :
    0 ≤ pack_rgb565 1 (1 / 2) 0 ∧ pack_rgb565 1 (1 / 2) 0 ≤ 0xFFFF ∧
    (0 ≤ intTrunc (min (1 : ℚ) 1 * 31) ∧ intTrunc (min (1 : ℚ) 1 * 31) ≤ 31) ∧
    (0 ≤ intTrunc (min (1 / 2 : ℚ) 1 * 63) ∧
      intTrunc (min (1 / 2 : ℚ) 1 * 63) ≤ 63) ∧
    (0 ≤ intTrunc (min (0 : ℚ) 1 * 31) ∧ intTrunc (min (0 : ℚ) 1 * 31) ≤ 31) ∧
    pack_rgb565 1 (1 / 2) 0 =
      intTrunc (min (1 : ℚ) 1 * 31) * 2 ^ 11 +
        intTrunc (min (1 / 2 : ℚ) 1 * 63) * 2 ^ 5 +
        intTrunc (min (0 : ℚ) 1 * 31) :=
  claim_C10 1 (1 / 2) 0 (by norm_num) (by norm_num) (by norm_num)

/-! ### Claims C4, C7, C8, C9 -/

/-- C4: with a non-zero clip-space w component, transform_vertex maps to a
device vertex with screenX = (ndcX + 1) * 0.5 * 64,
screenY = (1 - ndcY) * 0.5 * 64, depth = (ndcZ + 1) * 0.5 and weight
(1 / clip.w) * 16, where ndc = clip.xyz * (1 / clip.w) and clip is the mvp
image of the homogenized position; texture coordinates and color pass
through unchanged. -/
theorem claim_C4 (pos : Vec3 ℝ) (uv : ℝ × ℝ) (color : Vec3 ℝ) (mvp : Mat4 ℝ)
    (_h : (mat4_transform mvp ⟨pos.x, pos.y, pos.z, 1⟩).w ≠ 0) :
    (transform_vertex pos uv color mvp).x
        = ((mat4_transform mvp ⟨pos.x, pos.y, pos.z, 1⟩).x
            * (1 / (mat4_transform mvp ⟨pos.x, pos.y, pos.z, 1⟩).w) + 1) * 0.5 * 64 ∧
    (transform_vertex pos uv color mvp).y
        = (1 - (mat4_transform mvp ⟨pos.x, pos.y, pos.z, 1⟩).y
            * (1 / (mat4_transform mvp ⟨pos.x, pos.y, pos.z, 1⟩).w)) * 0.5 * 64 ∧
    (transform_vertex pos uv color mvp).z
        = ((mat4_transform mvp ⟨pos.x, pos.y, pos.z, 1⟩).z
            * (1 / (mat4_transform mvp ⟨pos.x, pos.y, pos.z, 1⟩).w) + 1) * 0.5 ∧
    (transform_vertex pos uv color mvp).w
        = (1 / (mat4_transform mvp ⟨pos.x, pos.y, pos.z, 1⟩).w) * 16 ∧
    (transform_vertex pos uv color mvp).u = uv.1 ∧
    (transform_vertex pos uv color mvp).v = uv.2 ∧
    (transform_vertex pos uv color mvp).r = color.x ∧
    (transform_vertex pos uv color mvp).g = color.y ∧
    (transform_vertex pos uv color mvp).b = color.z := by
  refine ⟨?_, ?_, ?_, ?_, rfl, rfl, rfl, rfl, rfl⟩ <;>
    · simp only [transform_vertex, SCREEN_WIDTH, SCREEN_HEIGHT]
      norm_num

/-- Witness for C4 at the identity matrix and the origin, where the clip w
component is 1. -/
theorem claim_C4_witness :
    (transform_vertex ⟨0, 0, 0⟩ (0, 0) ⟨0, 0, 0⟩ (mat4_identity : Mat4 ℝ)).x
        = ((mat4_transform (mat4_identity : Mat4 ℝ) ⟨0, 0, 0, 1⟩).x
            * (1 / (mat4_transform (mat4_identity : Mat4 ℝ) ⟨0, 0, 0, 1⟩).w) + 1)
            * 0.5 * 64 ∧
    (transform_vertex ⟨0, 0, 0⟩ (0, 0) ⟨0, 0, 0⟩ (mat4_identity : Mat4 ℝ)).y
        = (1 - (mat4_transform (mat4_identity : Mat4 ℝ) ⟨0, 0, 0, 1⟩).y
            * (1 / (mat4_transform (mat4_identity : Mat4 ℝ) ⟨0, 0, 0, 1⟩).w))
            * 0.5 * 64 ∧
    (transform_vertex ⟨0, 0, 0⟩ (0, 0) ⟨0, 0, 0⟩ (mat4_identity : Mat4 ℝ)).z
        = ((mat4_transform (mat4_identity : Mat4 ℝ) ⟨0, 0, 0, 1⟩).z
            * (1 / (mat4_transform (mat4_identity : Mat4 ℝ) ⟨0, 0, 0, 1⟩).w) + 1)
            * 0.5 ∧
    (transform_vertex ⟨0, 0, 0⟩ (0, 0) ⟨0, 0, 0⟩ (mat4_identity : Mat4 ℝ)).w
        = (1 / (mat4_transform (mat4_identity : Mat4 ℝ) ⟨0, 0, 0, 1⟩).w) * 16 ∧
    (transform_vertex ⟨0, 0, 0⟩ (0, 0) ⟨0, 0, 0⟩ (mat4_identity : Mat4 ℝ)).u
        = ((0 : ℝ), (0 : ℝ)).1 ∧
    (transform_vertex ⟨0, 0, 0⟩ (0, 0) ⟨0, 0, 0⟩ (mat4_identity : Mat4 ℝ)).v
        = ((0 : ℝ), (0 : ℝ)).2 ∧
    (transform_vertex ⟨0, 0, 0⟩ (0, 0) ⟨0, 0, 0⟩ (mat4_identity : Mat4 ℝ)).r
        = (Vec3.mk (0 : ℝ) 0 0).x ∧
    (transform_vertex ⟨0, 0, 0⟩ (0, 0) ⟨0, 0, 0⟩ (mat4_identity : Mat4 ℝ)).g
        = (Vec3.mk (0 : ℝ) 0 0).y ∧
    (transform_vertex ⟨0, 0, 0⟩ (0, 0) ⟨0, 0, 0⟩ (mat4_identity : Mat4 ℝ)).b
        = (Vec3.mk (0 : ℝ) 0 0).z :=
  claim_C4 ⟨0, 0, 0⟩ (0, 0) ⟨0, 0, 0⟩ (mat4_identity : Mat4 ℝ)
    (by norm_num [mat4_transform, mat4_identity])

/-- C9: the device vertex built by transform_vertex always has alpha
exactly 1, for every position, texture coordinate, color and matrix. -/
theorem claim_C9 (pos : Vec3 ℝ) (uv : ℝ × ℝ) (color : Vec3 ℝ) (mvp : Mat4 ℝ) :
    (transform_vertex pos uv color mvp).a = 1 := by
  norm_num [transform_vertex]

/-- C7: multiplying by the identity matrix on either side returns the other
matrix unchanged. -/
theorem claim_C7 (M : Mat4 ℝ) :
    mat4_multiply mat4_identity M = M ∧ mat4_multiply M mat4_identity = M := by
  constructor <;> funext i j <;> fin_cases i <;> fin_cases j <;>
    simp [mat4_multiply, mat4_identity, Matrix.vecHead, Matrix.vecTail,
      Function.comp]

/-- C8: the render loop looks up the color of triangle t at face index
t / 2 (the source computes face = i // 6 with i = 3 * t) and hands that
same color to the transform of each of the three vertices. -/
theorem claim_C8 (mvp : Mat4 ℚ) (t : ℕ) (_h : t < 12) :
    ((render_triangle mvp t).1.r = (FACE_COLORS.getD (t / 2) ⟨0, 0, 0⟩).x ∧
     (render_triangle mvp t).1.g = (FACE_COLORS.getD (t / 2) ⟨0, 0, 0⟩).y ∧
     (render_triangle mvp t).1.b = (FACE_COLORS.getD (t / 2) ⟨0, 0, 0⟩).z) ∧
    ((render_triangle mvp t).2.1.r = (FACE_COLORS.getD (t / 2) ⟨0, 0, 0⟩).x ∧
     (render_triangle mvp t).2.1.g = (FACE_COLORS.getD (t / 2) ⟨0, 0, 0⟩).y ∧
     (render_triangle mvp t).2.1.b = (FACE_COLORS.getD (t / 2) ⟨0, 0, 0⟩).z) ∧
    ((render_triangle mvp t).2.2.r = (FACE_COLORS.getD (t / 2) ⟨0, 0, 0⟩).x ∧
     (render_triangle mvp t).2.2.g = (FACE_COLORS.getD (t / 2) ⟨0, 0, 0⟩).y ∧
     (render_triangle mvp t).2.2.b = (FACE_COLORS.getD (t / 2) ⟨0, 0, 0⟩).z) := by
  have hface : 3 * t / 6 = t / 2 := by omega
  simp [render_triangle, transform_vertex, hface]

/-- Witness for C8 at the identity matrix and triangle 5 (second triangle of
the top face). -/
theorem claim_C8_witness :
    ((render_triangle mat4_identity 5).1.r = (FACE_COLORS.getD (5 / 2) ⟨0, 0, 0⟩).x ∧
     (render_triangle mat4_identity 5).1.g = (FACE_COLORS.getD (5 / 2) ⟨0, 0, 0⟩).y ∧
     (render_triangle mat4_identity 5).1.b = (FACE_COLORS.getD (5 / 2) ⟨0, 0, 0⟩).z) ∧
    ((render_triangle mat4_identity 5).2.1.r = (FACE_COLORS.getD (5 / 2) ⟨0, 0, 0⟩).x ∧
     (render_triangle mat4_identity 5).2.1.g = (FACE_COLORS.getD (5 / 2) ⟨0, 0, 0⟩).y ∧
     (render_triangle mat4_identity 5).2.1.b = (FACE_COLORS.getD (5 / 2) ⟨0, 0, 0⟩).z) ∧
    ((render_triangle mat4_identity 5).2.2.r = (FACE_COLORS.getD (5 / 2) ⟨0, 0, 0⟩).x ∧
     (render_triangle mat4_identity 5).2.2.g = (FACE_COLORS.getD (5 / 2) ⟨0, 0, 0⟩).y ∧
     (render_triangle mat4_identity 5).2.2.b = (FACE_COLORS.getD (5 / 2) ⟨0, 0, 0⟩).z) :=
  claim_C8 mat4_identity 5 (by norm_num)

/-! ### Claims C5 and C6 -/

lemma vec3_length_scale_inv {v : Vec3 ℝ} (h : 0 < vec3_length v) :
    vec3_length (vec3_scale v (1 / vec3_length v)) = 1 := by
  have hne : vec3_length v ≠ 0 := ne_of_gt h
  have hdot : vec3_dot (vec3_scale v (1 / vec3_length v))
        (vec3_scale v (1 / vec3_length v))
      = (1 / vec3_length v) ^ 2 * vec3_dot v v := by
    simp only [vec3_dot, vec3_scale]
    ring
  rw [vec3_length, hdot, Real.sqrt_mul (sq_nonneg _),
    Real.sqrt_sq (by positivity), ← vec3_length]
  field_simp

/-- C6: when the length of v exceeds 1e-4, normalize returns v scaled by the
reciprocal of its Euclidean length and the result has unit length; when the
length is at most 1e-4 it returns v unchanged. -/
theorem claim_C6 (v : Vec3 ℝ) :
    (0.0001 < vec3_length v →
      vec3_normalize v = vec3_scale v (1 / vec3_length v) ∧
      vec3_length (vec3_normalize v) = 1) ∧
    (vec3_length v ≤ 0.0001 → vec3_normalize v = v) := by
  constructor
  · intro h
    have he : vec3_normalize v = vec3_scale v (1 / vec3_length v) := by
      rw [vec3_normalize, if_pos h]
      norm_num
    refine ⟨he, ?_⟩
    rw [he]
    exact vec3_length_scale_inv (lt_trans (by norm_num) h)
  · intro h
    rw [vec3_normalize, if_neg (not_lt.mpr h)]

/-- Witness for C6 at v = (3, 4, 0), of length 5. -/
theorem claim_C6_witness :
    vec3_normalize ⟨3, 4, 0⟩
        = vec3_scale ⟨3, 4, 0⟩ (1 / vec3_length ⟨3, 4, 0⟩) ∧
    vec3_length (vec3_normalize ⟨3, 4, 0⟩) = 1 := by
  have h5 : vec3_length (⟨3, 4, 0⟩ : Vec3 ℝ) = 5 := by
    rw [vec3_length, show vec3_dot (⟨3, 4, 0⟩ : Vec3 ℝ) ⟨3, 4, 0⟩ = 5 ^ 2 by
      rw [vec3_dot]; norm_num]
    exact Real.sqrt_sq (by norm_num)
  exact (claim_C6 ⟨3, 4, 0⟩).1 (by rw [h5]; norm_num)

/-- C5: under the preconditions that target - eye and the cross of forward
with up are longer than 1e-4, the look-at matrix has rows right, trueUp and
negated forward with translation entries the negated dots of right and
trueUp with eye and the positive dot of forward with eye, where forward,
right and trueUp are the unit basis vectors of the spec. -/
theorem claim_C5 (eye target up : Vec3 ℝ)
    (h1 : 0.0001 < vec3_length (vec3_sub target eye))
    (h2 : 0.0001 < vec3_length (vec3_cross
      (vec3_normalize (vec3_sub target eye)) up)) :
    mat4_look_at eye target up = mat4_look_at_spec eye target up := by
  have e1 : vec3_normalize (vec3_sub target eye)
      = vec3_scale (vec3_sub target eye)
          (1 / vec3_length (vec3_sub target eye)) := by
    rw [vec3_normalize, if_pos h1]
    norm_num
  rw [e1] at h2
  have e2 : vec3_normalize (vec3_cross (vec3_scale (vec3_sub target eye)
        (1 / vec3_length (vec3_sub target eye))) up)
      = vec3_scale (vec3_cross (vec3_scale (vec3_sub target eye)
          (1 / vec3_length (vec3_sub target eye))) up)
        (1 / vec3_length (vec3_cross (vec3_scale (vec3_sub target eye)
          (1 / vec3_length (vec3_sub target eye))) up)) := by
    rw [vec3_normalize, if_pos h2]
    norm_num
  simp only [mat4_look_at, mat4_look_at_spec, e1, e2]

/-- Witness for C5 with the camera at the origin looking down the negative
z axis: target - eye has length 2 and the cross of forward with up has
length 1. -/
theorem claim_C5_witness :
    mat4_look_at ⟨0, 0, 0⟩ ⟨0, 0, -2⟩ ⟨0, 1, 0⟩
      = mat4_look_at_spec ⟨0, 0, 0⟩ ⟨0, 0, -2⟩ ⟨0, 1, 0⟩ := by
  have hsub : vec3_sub (⟨0, 0, -2⟩ : Vec3 ℝ) ⟨0, 0, 0⟩ = ⟨0, 0, -2⟩ := by
    simp [vec3_sub]
  have hl : vec3_length (vec3_sub (⟨0, 0, -2⟩ : Vec3 ℝ) ⟨0, 0, 0⟩) = 2 := by
    rw [vec3_length, show vec3_dot (vec3_sub (⟨0, 0, -2⟩ : Vec3 ℝ) ⟨0, 0, 0⟩)
        (vec3_sub (⟨0, 0, -2⟩ : Vec3 ℝ) ⟨0, 0, 0⟩) = 2 ^ 2 by
      rw [hsub, vec3_dot]; norm_num]
    exact Real.sqrt_sq (by norm_num)
  have hn : vec3_normalize (vec3_sub (⟨0, 0, -2⟩ : Vec3 ℝ) ⟨0, 0, 0⟩)
      = ⟨0, 0, -1⟩ := by
    rw [vec3_normalize, if_pos (by rw [hl]; norm_num), hl, hsub, vec3_scale]
    norm_num
  have hc : vec3_cross (⟨0, 0, -1⟩ : Vec3 ℝ) ⟨0, 1, 0⟩ = ⟨1, 0, 0⟩ := by
    rw [vec3_cross]
    norm_num
  have hl2 : vec3_length (vec3_cross (vec3_normalize
      (vec3_sub (⟨0, 0, -2⟩ : Vec3 ℝ) ⟨0, 0, 0⟩)) ⟨0, 1, 0⟩) = 1 := by
    rw [hn, hc, vec3_length, show vec3_dot (⟨1, 0, 0⟩ : Vec3 ℝ) ⟨1, 0, 0⟩ = 1 by
      rw [vec3_dot]; norm_num]
    exact Real.sqrt_one
  exact claim_C5 ⟨0, 0, 0⟩ ⟨0, 0, -2⟩ ⟨0, 1, 0⟩ (by rw [hl]; norm_num)
    (by rw [hl2]; norm_num)

end Celery3D
